import Mathlib

/- Shallow embedding of src/player.c (pianobar-save).

   The ffmpeg / libao / pthread libraries are external collaborators: their
   effects are modelled as environment-supplied inputs (read results, decode
   outcomes, open/filter/device success flags) and as events recorded in a
   trace.  The player's own control flow — the retry loop in BarPlayerThread,
   the decode loop in play, the pause gate, the watchdog pings, the
   save-file decision and path construction in openStream, and the
   finalization at the end of BarPlayerThread — is translated statement by
   statement from the source.  File paths are modelled as lists of
   characters; timestamps as natural numbers (the code only ever seeks for
   lastTimestamp > 0 and rescales non-negative packet timestamps). -/

namespace Player

/-- Terminal result codes PLAYER_RET_* (player.h, used in BarPlayerThread). -/
inductive RC where
  | ok | softfail | hardfail
deriving DecidableEq

/-- Player modes PLAYER_OPENING / PLAYER_PLAYING / PLAYER_FINISHED. -/
inductive Mode where
  | opening | playing | finished
deriving DecidableEq

/-- ffmpeg error code AVERROR_INVALIDDATA = FFERRTAG of characters I N D A. -/
def AVERROR_INVALIDDATA : Int := -1094995529

/-- player.c line 124, intCb: the interrupt callback returns nonzero (true)
    when the time elapsed since the last ping exceeds 10 seconds, both times
    in microseconds: av_gettime () - player->ping > 10*1000000. -/
def intCb (now lastPing : Int) : Bool := decide (now - lastPing > 10 * 1000000)

/-- The library calls made by the player, as recorded in the trace.  Only
    openInput, findStreamInfo, seekFrame and readFrame are blocking stream
    I/O; findBestStream, findDecoder and codecOpen2 operate on already
    fetched data. -/
inductive CKind where
  | openInput | findStreamInfo | findBestStream | findDecoder | codecOpen2
  | seekFrame (ts : Nat) | readFrame
deriving DecidableEq

/-- Which calls are blocking I/O into the stream library (the ones the spec
    lists for the watchdog: open, probe, seek, packet read). -/
def CKind.isBlockingCall : CKind → Bool
  | .openInput => true
  | .findStreamInfo => true
  | .seekFrame _ => true
  | .readFrame => true
  | _ => false

/-- Observable events of a session, in program order. -/
inductive Ev where
  | ping
  | call (k : CKind)
  | teeWrite (pts dts : Nat)
  | pauseWait
  | readPlay
  | sinkWrite (n : Nat)
  | closeDev | closeGraph | closeCodec | closeInput
deriving DecidableEq

/-- One avcodec_decode_audio4 result: retval is the return value (negative
    on error, else the number of consumed bytes); frames is the list of byte
    counts handed to ao_play for the filtered frames this call produced
    (empty when got_frame stays 0 or the filter buffers everything). -/
structure DecodeOutcome where
  retval : Int
  frames : List Nat
deriving DecidableEq

/-- One packet as delivered by av_read_frame. -/
structure Packet where
  streamIndex : Nat
  pts : Nat
  dts : Nat
  size : Nat
  outcomes : List DecodeOutcome
deriving DecidableEq

/-- Result of one av_read_frame call. -/
inductive ReadResult where
  | ok (p : Packet)
  | err (e : Int)
deriving DecidableEq

/-- Environment of one iteration of the decode loop: the value of doQuit
    observed at the loop head, the av_read_frame result, and how many times
    the pause gate observes doPause = true before observing false. -/
structure IterInput where
  quit : Bool
  read : ReadResult
  pauseSpins : Nat
deriving DecidableEq

/-- ffmpeg av_rescale_rnd with AV_ROUND_NEAR_INF (the av_rescale_q default):
    a*b/c rounded to the nearest integer, for the non-negative arguments the
    player uses. -/
def avRescaleRnd (a b c : Nat) : Nat := (a * b + c / 2) / c

/-- ffmpeg av_rescale_q a bq cq = av_rescale_rnd a (bq.num*cq.den)
    (cq.num*bq.den), time bases given as num/den pairs. -/
def avRescaleQ (a bNum bDen cNum cDen : Nat) : Nat :=
  avRescaleRnd a (bNum * cDen) (cNum * bDen)

/-- Per-session configuration of the decode loop, fixed once openStream,
    openFilter and openDevice succeeded: the selected stream index, the
    save_file flag, the codec time bases of the input streams (index i holds
    fctx->streams[i]->codec->time_base as a num/den pair), the output
    container's stream time base (ofcx->streams[0]->time_base after
    avformat_write_header) and the selected stream's time base st->time_base
    (used for songPlayed). -/
structure PConfig where
  streamIdx : Nat
  saveFile : Bool
  codecTbs : List (Nat × Nat)
  outTbNum : Nat
  outTbDen : Nat
  stTbNum : Nat
  stTbDen : Nat
deriving DecidableEq

/-- The per-packet state play updates (player.c lines 490-491). songPlayed
    is a C double; it is modelled as an exact rational. -/
structure PlayState where
  lastTimestamp : Nat
  songPlayed : ℚ
deriving DecidableEq

/-- player.c lines 408-417: both timestamps of the copied packet are
    rescaled with av_rescale_q from fctx->streams[0]->codec->time_base (the
    source operand the code uses is stream 0, not streamIdx) to
    ofcx->streams[0]->time_base. -/
def teeRescale (cfg : PConfig) (t : Nat) : Nat :=
  avRescaleQ t cfg.codecTbs.headI.1 cfg.codecTbs.headI.2 cfg.outTbNum cfg.outTbDen

/-- player.c lines 406-419: if save_file, rewrite the stream index, rescale
    pts and dts and av_write_frame the packet into the output container. -/
def teeEvs (cfg : PConfig) (p : Packet) : List Ev :=
  if cfg.saveFile then [Ev.teeWrite (teeRescale cfg p.pts) (teeRescale cfg p.dts)] else []

/-- player.c lines 424-435, the pause gate: while doPause is observed true
    the worker calls av_read_pause and blocks on the condition variable
    (event pauseWait); on observing false it calls av_read_play (event
    readPlay) and proceeds. -/
def gateEvs (spins : Nat) : List Ev :=
  List.replicate spins Ev.pauseWait ++ [Ev.readPlay]

/-- player.c lines 437-485, the inner decode loop over one packet: each
    avcodec_decode_audio4 call either fails (negative retval: break, the
    rest of the packet is discarded) or consumes retval bytes and plays its
    produced frames; the loop continues while pkt.size stays positive.
    Returns the byte counts written to the audio device for this packet. -/
def decodePacket : Nat → List DecodeOutcome → List Nat
  | _, [] => []
  | size, o :: rest =>
    if o.retval < 0 then []
    else
      let remaining := size - o.retval.toNat
      if remaining = 0 then o.frames
      else o.frames ++ decodePacket remaining rest

/-- player.c lines 490-491: after the decode loop, songPlayed :=
    av_q2d (st->time_base) * pkt.pts and lastTimestamp := pkt.pts. -/
def iterUpdate (cfg : PConfig) (_st : PlayState) (p : Packet) : PlayState :=
  ⟨p.pts, (cfg.stTbNum : ℚ) / (cfg.stTbDen : ℚ) * (p.pts : ℚ)⟩

/-- Events of one decode-loop iteration on a packet of the selected stream,
    after the av_read_frame call: recording tee, pause gate, decode and
    device writes, in source order (player.c lines 406-485). -/
def iterEvents (cfg : PConfig) (p : Packet) (spins : Nat) : List Ev :=
  teeEvs cfg p ++ gateEvs spins ++ (decodePacket p.size p.outcomes).map Ev.sinkWrite

/-- player.c lines 390-498, play: while doQuit is not observed, ping the
    watchdog, av_read_frame the next packet; on read error return that code;
    skip packets of other streams; otherwise tee, pause-gate, decode, write,
    and update lastTimestamp/songPlayed.  When doQuit is observed at the
    loop head, return 0.  Returns none when the environment script ends
    before the loop does (the run is not modelled to completion). -/
def playGo (cfg : PConfig) : PlayState → List IterInput → Option (PlayState × List Ev × Int)
  | _, [] => none
  | st, inp :: rest =>
    if inp.quit then some (st, [], 0)
    else
      match inp.read with
      | .err e => some (st, [Ev.ping, Ev.call .readFrame], e)
      | .ok p =>
        if p.streamIndex ≠ cfg.streamIdx then
          (playGo cfg st rest).map fun r =>
            (r.1, Ev.ping :: Ev.call .readFrame :: r.2.1, r.2.2)
        else
          (playGo cfg (iterUpdate cfg st p) rest).map fun r =>
            (r.1, (Ev.ping :: Ev.call .readFrame :: iterEvents cfg p inp.pauseSpins) ++ r.2.1, r.2.2)

/-- The openStream steps that can fail with softfail (player.c 160-193). -/
inductive OpenStep where
  | openInput | findStreamInfo | findBestStream | findDecoder | codecOpen2
deriving DecidableEq

/-- Watchdog/call trace of an openStream run that fails at the given step
    (player.c 158-193): ping before avformat_open_input, ping before
    avformat_find_stream_info, ping before av_find_best_stream, then
    avcodec_find_decoder and avcodec_open2 without pings. -/
def openTraceFail : OpenStep → List Ev
  | .openInput => [Ev.ping, Ev.call .openInput]
  | .findStreamInfo =>
      [Ev.ping, Ev.call .openInput, Ev.ping, Ev.call .findStreamInfo]
  | .findBestStream =>
      [Ev.ping, Ev.call .openInput, Ev.ping, Ev.call .findStreamInfo,
       Ev.ping, Ev.call .findBestStream]
  | .findDecoder =>
      [Ev.ping, Ev.call .openInput, Ev.ping, Ev.call .findStreamInfo,
       Ev.ping, Ev.call .findBestStream, Ev.call .findDecoder]
  | .codecOpen2 =>
      [Ev.ping, Ev.call .openInput, Ev.ping, Ev.call .findStreamInfo,
       Ev.ping, Ev.call .findBestStream, Ev.call .findDecoder, Ev.call .codecOpen2]

/-- Watchdog/call trace of a successful openStream (player.c 158-198): the
    five steps above and, when the entering lastTimestamp is positive, a
    ping followed by av_seek_frame to that timestamp. -/
def openTraceOk (lastTs : Nat) : List Ev :=
  [Ev.ping, Ev.call .openInput, Ev.ping, Ev.call .findStreamInfo,
   Ev.ping, Ev.call .findBestStream, Ev.call .findDecoder, Ev.call .codecOpen2]
  ++ (if 0 < lastTs then [Ev.ping, Ev.call (.seekFrame lastTs)] else [])

/-- player.c lines 239-243: every path separator in the combined
    artist - title filename buffer is replaced by a space. -/
def sanitizeFilename (s : List Char) : List Char :=
  s.map fun c => if c = '/' then ' ' else c

/-- player.c lines 223-228: save_dir, with exactly one trailing slash. -/
def normSaveDir (d : List Char) : List Char :=
  if d.getLast? = some '/' then d else d ++ ['/']

/-- player.c line 230: save_path = save_dir (slash-terminated) ++ station
    ++ slash; the station string is concatenated verbatim. -/
def savePathOf (d station : List Char) : List Char :=
  normSaveDir d ++ station ++ ['/']

/-- player.c line 237: save_filename = artist ++ " - " ++ title ++ ".aac",
    before sanitization. -/
def rawFilename (artist title : List Char) : List Char :=
  artist ++ (' ' :: '-' :: ' ' :: []) ++ title ++ ('.' :: 'a' :: 'a' :: 'c' :: [])

/-- player.c lines 237-243: the single filename component actually used,
    after the separator-to-space substitution. -/
def saveFilenameOf (artist title : List Char) : List Char :=
  sanitizeFilename (rawFilename artist title)

/-- player.c line 245: the temp file lives under /tmp. -/
def tmpDir : List Char := '/' :: 't' :: 'm' :: 'p' :: '/' :: []

/-- Outcome of the recording set-up part of openStream. -/
structure SaveDecision where
  saveFile : Bool
  tmpFilename : List Char
  saveComplete : List Char
  dirsCreated : List (List Char)
  containerCreated : Bool
deriving DecidableEq

/-- player.c lines 205-281: save_file := (save_dir ≠ NULL); if set, build
    save_path (creating the station directory with one mkdir call when stat
    fails), build the sanitized filename, store tmp_filename and
    save_complete, then clear save_file again when access finds an existing
    file at save_complete; the output container (avio_open2 +
    avformat_write_header at tmp_filename) is created iff save_file is
    still set.  dirExists models stat succeeding, fileExists models access
    succeeding. -/
def openSave (saveDir : Option (List Char)) (station artist title : List Char)
    (dirExists fileExists : Bool) : SaveDecision :=
  match saveDir with
  | none => ⟨false, [], [], [], false⟩
  | some d =>
    let savePath := savePathOf d station
    let fname := saveFilenameOf artist title
    let sf := !fileExists
    ⟨sf, tmpDir ++ fname, savePath ++ fname,
     if dirExists then [] else [savePath], sf⟩

/-- Static, per-track configuration of BarPlayerThread. -/
structure SCfg where
  streamIdx : Nat
  codecTbs : List (Nat × Nat)
  stTbNum : Nat
  stTbDen : Nat
  saveDir : Option (List Char)
  station : List Char
  artist : List Char
  title : List Char

/-- Environment of one openStream call: which step fails (none = success),
    whether the station directory and the target file already exist, and
    the output container time base that avformat_write_header leaves in
    ofcx->streams[0]->time_base. -/
structure OpenEnv where
  failAt : Option OpenStep
  dirExists : Bool
  fileExists : Bool
  outTbNum : Nat
  outTbDen : Nat

/-- Environment of one iteration of BarPlayerThread's retry loop. -/
structure Attempt where
  env : OpenEnv
  filterOk : Bool
  deviceOk : Bool
  script : List IterInput

/-- player.c lines 501-515, finish: ao_close always, then free the filter
    graph / close the codec / close the input when the respective handle is
    set.  The flags say which handles a given path had acquired (all three
    on the retry path, where open, filter and device all succeeded). -/
def finishTrace (hasGraph hasStream hasInput : Bool) : List Ev :=
  [Ev.closeDev] ++ (if hasGraph then [Ev.closeGraph] else [])
    ++ (if hasStream then [Ev.closeCodec] else [])
    ++ (if hasInput then [Ev.closeInput] else [])

/-- The play configuration a successful openStream hands to play. -/
def pcfgOf (cfg : SCfg) (sf : Bool) (oe : OpenEnv) : PConfig :=
  ⟨cfg.streamIdx, sf, cfg.codecTbs, oe.outTbNum, oe.outTbDen, cfg.stTbNum, cfg.stTbDen⟩

/-- Result of the retry loop of BarPlayerThread. -/
structure ThreadOut where
  pret : RC
  lastTimestamp : Nat
  saveFile : Bool
  trace : List Ev
deriving DecidableEq

/-- player.c lines 529-544, the retry loop: openStream failure sets pret to
    SOFTFAIL and stops; openFilter/openDevice failure sets pret to HARDFAIL
    and stops; otherwise play runs and the loop repeats exactly when play
    returned AVERROR_INVALIDDATA, with pret untouched (play's return value
    is used only for the retry test).  finish runs on every path.  The
    save_file flag keeps its previous value when openStream fails before
    recomputing it, and lastTimestamp flows from play's final state into
    the next attempt.  Returns none when the environment ends mid-loop. -/
def threadGo (cfg : SCfg) : RC → Nat → Bool → List Attempt → Option ThreadOut
  | _, _, _, [] => none
  | pret, lastTs, sfPrev, a :: rest =>
    match a.env.failAt with
    | some stp =>
      some ⟨RC.softfail, lastTs, sfPrev, openTraceFail stp ++ finishTrace false false false⟩
    | none =>
      let sd := openSave cfg.saveDir cfg.station cfg.artist cfg.title a.env.dirExists a.env.fileExists
      if a.filterOk && a.deviceOk then
        match playGo (pcfgOf cfg sd.saveFile a.env) ⟨lastTs, 0⟩ a.script with
        | none => none
        | some (st, tr, ret) =>
          if ret = AVERROR_INVALIDDATA then
            (threadGo cfg pret st.lastTimestamp sd.saveFile rest).map fun r =>
              ⟨r.pret, r.lastTimestamp, r.saveFile,
               (openTraceOk lastTs ++ tr ++ finishTrace true true true) ++ r.trace⟩
          else
            some ⟨pret, st.lastTimestamp, sd.saveFile,
                  openTraceOk lastTs ++ tr ++ finishTrace true true true⟩
      else
        some ⟨RC.hardfail, lastTs, sd.saveFile,
              openTraceOk lastTs ++ finishTrace a.filterOk true true⟩

/-- Observable outcome of a whole BarPlayerThread run. -/
structure FinalOut where
  pret : RC
  mode : Mode
  saveFile : Bool
  finalized : Bool
  movedToFinal : Bool
  lastTimestamp : Nat
  trace : List Ev
deriving DecidableEq

/-- player.c lines 521-557, BarPlayerThread: pret starts at PLAYER_RET_OK,
    the retry loop runs, mode is set to PLAYER_FINISHED, and then — guarded
    only by save_file && !doQuit, with no look at pret — the trailer is
    written, the container closed (finalized) and the temp file moved to
    save_complete with a shell mv (movedToFinal).  doQuitAtEnd is the value
    of player->doQuit at that final check. -/
def barPlayerThread (cfg : SCfg) (attempts : List Attempt) (doQuitAtEnd : Bool) :
    Option FinalOut :=
  (threadGo cfg RC.ok 0 false attempts).map fun r =>
    ⟨r.pret, Mode.finished, r.saveFile, r.saveFile && !doQuitAtEnd,
     r.saveFile && !doQuitAtEnd, r.lastTimestamp, r.trace⟩

/-- Byte counts handed to ao_play, in order, extracted from a trace. -/
def sinkWritesOf (l : List Ev) : List Nat :=
  l.filterMap fun e => match e with | Ev.sinkWrite n => some n | _ => none

/-- (pts, dts) pairs written to the recording container, extracted from a
    trace. -/
def teeWritesOf (l : List Ev) : List (Nat × Nat) :=
  l.filterMap fun e => match e with | Ev.teeWrite p d => some (p, d) | _ => none

/-- Paused-flag evolution along a trace: pauseWait events happen with
    doPause observed true, readPlay marks the gate observing false. -/
def pauseStep (b : Bool) : Ev → Bool
  | Ev.pauseWait => true
  | Ev.readPlay => false
  | _ => b

/-- A device write is admissible only when the gate last observed
    doPause = false. -/
def pauseGuard (b : Bool) : Ev → Bool
  | Ev.sinkWrite _ => !b
  | _ => true

/-- Checks along a trace that no device write happens between an observation
    of doPause = true and the following observation of doPause = false. -/
def pausedOk : Bool → List Ev → Bool
  | _, [] => true
  | b, e :: r => pauseGuard b e && pausedOk (pauseStep b e) r

/-- The paused flag after scanning a trace. -/
def pauseStateAfter (b : Bool) (l : List Ev) : Bool := l.foldl pauseStep b

/-- Whether the previous event was a watchdog ping. -/
def isPing : Option Ev → Bool
  | some Ev.ping => true
  | _ => false

/-- A blocking stream-library call is admissible only right after a ping. -/
def evGuard (prev : Option Ev) : Ev → Bool
  | Ev.call k => !k.isBlockingCall || isPing prev
  | _ => true

/-- Checks that every blocking stream-library call in a trace is immediately
    preceded by a watchdog ping; prev is the event just before the trace. -/
def wellPingedFrom : Option Ev → List Ev → Bool
  | _, [] => true
  | prev, e :: r => evGuard prev e && wellPingedFrom (some e) r

/-- Last event of a trace, or the entering one when the trace is empty. -/
def lastEv : Option Ev → List Ev → Option Ev
  | p, [] => p
  | _, e :: r => lastEv (some e) r

/-- Whether a trace contains any library call event. -/
def hasCall : List Ev → Bool
  | [] => false
  | Ev.call _ :: _ => true
  | _ :: r => hasCall r

/-- An iteration that neither observes doQuit nor hits a read error. -/
def iterOk (i : IterInput) : Bool :=
  !i.quit && (match i.read with | .ok _ => true | .err _ => false)

/-- State after one non-quit, successfully-read iteration. -/
def stepStateP (cfg : PConfig) (st : PlayState) (i : IterInput) : PlayState :=
  match i.read with
  | .ok p => if p.streamIndex ≠ cfg.streamIdx then st else iterUpdate cfg st p
  | .err _ => st

/-- State after a run of non-quit, successfully-read iterations. -/
def runStateP (cfg : PConfig) : PlayState → List IterInput → PlayState
  | st, [] => st
  | st, i :: r => runStateP cfg (stepStateP cfg st i) r

/-- Events of one non-quit, successfully-read iteration. -/
def iterTrace (cfg : PConfig) (i : IterInput) : List Ev :=
  match i.read with
  | .ok p =>
    if p.streamIndex ≠ cfg.streamIdx then [Ev.ping, Ev.call .readFrame]
    else Ev.ping :: Ev.call .readFrame :: iterEvents cfg p i.pauseSpins
  | .err _ => [Ev.ping, Ev.call .readFrame]

/-- Events of a run of non-quit, successfully-read iterations. -/
def runTraceP (cfg : PConfig) : List IterInput → List Ev
  | [] => []
  | i :: r => iterTrace cfg i ++ runTraceP cfg r

/-- The packets of the selected stream a play run processes before it
    terminates (by quit or read error). -/
def pktsOf (cfg : PConfig) : List IterInput → List Packet
  | [] => []
  | i :: r =>
    if i.quit then []
    else match i.read with
      | .err _ => []
      | .ok p => if p.streamIndex ≠ cfg.streamIdx then pktsOf cfg r else p :: pktsOf cfg r

/-- The same script with every pause observation removed. -/
def stripSpins (s : List IterInput) : List IterInput :=
  s.map fun i => ⟨i.quit, i.read, 0⟩

/-- The same play configuration with the save_file flag replaced. -/
def withSaveFile (cfg : PConfig) (b : Bool) : PConfig :=
  ⟨cfg.streamIdx, b, cfg.codecTbs, cfg.outTbNum, cfg.outTbDen, cfg.stTbNum, cfg.stTbDen⟩

/-- Modelled from the spec (§4.5, §8), for comparison with the code: the
    exact rational rescale value pts * sourceTimeBase / destTimeBase, the
    source operand being the selected track's codec time base. -/
def specExactRescale (a bNum bDen cNum cDen : Nat) : ℚ :=
  (a : ℚ) * ((bNum : ℚ) / (bDen : ℚ)) / ((cNum : ℚ) / (cDen : ℚ))

/-- ffmpeg error code AVERROR_EXIT, returned by av_read_frame when the
    watchdog interrupt callback aborts a blocked read. -/
def AVERROR_EXIT : Int := -1414092869

/-- Concrete environments used by witnesses and counterexamples. -/
def quitIter : IterInput := ⟨true, ReadResult.ok ⟨0, 0, 0, 0, []⟩, 0⟩

def pkt7 : Packet := ⟨0, 7, 7, 4, [⟨4, [512]⟩]⟩

def invalidIter : IterInput := ⟨false, ReadResult.err AVERROR_INVALIDDATA, 0⟩

def wCfg : SCfg :=
  ⟨0, [(1, 1)], 1, 1, some ('d' :: []), 's' :: [], 'a' :: [], 't' :: []⟩

def goodOpenEnv : OpenEnv := ⟨none, true, false, 1, 1⟩

def cexHardAttempt : Attempt := ⟨goodOpenEnv, false, true, []⟩

def cexReadErrAttempt : Attempt :=
  ⟨goodOpenEnv, true, true, [⟨false, ReadResult.err AVERROR_EXIT, 0⟩]⟩

def retryAttempt : Attempt :=
  ⟨goodOpenEnv, true, true, [⟨false, ReadResult.ok pkt7, 0⟩, invalidIter]⟩

def quitAttempt : Attempt := ⟨goodOpenEnv, true, true, [quitIter]⟩

def cexPConfig : PConfig := ⟨1, true, [(1, 3), (1, 5)], 1, 1, 1, 1⟩

def cexPkt : Packet := ⟨1, 15, 15, 0, []⟩

def cexScript : List IterInput := [⟨false, ReadResult.ok cexPkt, 0⟩, quitIter]

/-- The playback-relevant projection of a play run: final state, device
    write sizes, return code.  Neither the save_file flag nor the pause
    observations occur in it; playGo_proj below proves it is the projection
    of playGo. -/
def playProj (cfg : PConfig) : PlayState → List IterInput → Option (PlayState × List Nat × Int)
  | _, [] => none
  | st, inp :: rest =>
    if inp.quit then some (st, [], 0)
    else
      match inp.read with
      | .err e => some (st, [], e)
      | .ok p =>
        if p.streamIndex ≠ cfg.streamIdx then playProj cfg st rest
        else
          (playProj cfg (iterUpdate cfg st p) rest).map fun r =>
            (r.1, decodePacket p.size p.outcomes ++ r.2.1, r.2.2)

/-- The play configuration of a successful open with wCfg and goodOpenEnv. -/
def wPCfg : PConfig := ⟨0, true, [(1, 1)], 1, 1, 1, 1⟩

/-- A script whose single packet is processed after two pause observations. -/
def pauseScript : List IterInput := [⟨false, ReadResult.ok pkt7, 2⟩, quitIter]

/-- Events of the first (retried) attempt's play run in the retry witness. -/
def w2tr : List Ev :=
  [Ev.ping, Ev.call .readFrame, Ev.teeWrite 7 7, Ev.readPlay, Ev.sinkWrite 512,
   Ev.ping, Ev.call .readFrame]

/-- Outcome of barPlayerThread wCfg [quitAttempt] true. -/
def w1Out : FinalOut :=
  ⟨RC.ok, Mode.finished, true, false, false, 0,
   openTraceOk 0 ++ finishTrace true true true⟩

/-- Outcome of barPlayerThread wCfg [retryAttempt, quitAttempt] false. -/
def w2Out : FinalOut :=
  ⟨RC.ok, Mode.finished, true, true, true, 7,
   (openTraceOk 0 ++ w2tr ++ finishTrace true true true) ++
     (openTraceOk 7 ++ [] ++ finishTrace true true true)⟩

/- Helper lemmas. -/

theorem sinkWritesOf_append (x y : List Ev) :
    sinkWritesOf (x ++ y) = sinkWritesOf x ++ sinkWritesOf y := by
  simp [sinkWritesOf]

theorem teeWritesOf_append (x y : List Ev) :
    teeWritesOf (x ++ y) = teeWritesOf x ++ teeWritesOf y := by
  simp [teeWritesOf]

theorem sinkWritesOf_sinkMap (ws : List Nat) :
    sinkWritesOf (ws.map Ev.sinkWrite) = ws := by
  induction ws with
  | nil => rfl
  | cons w r ih => simp [sinkWritesOf, List.filterMap_cons] at ih ⊢; exact ih

theorem sinkWritesOf_teeEvs (cfg : PConfig) (p : Packet) :
    sinkWritesOf (teeEvs cfg p) = [] := by
  unfold teeEvs; split <;> rfl

theorem sinkWritesOf_gateEvs (n : Nat) : sinkWritesOf (gateEvs n) = [] := by
  unfold gateEvs sinkWritesOf
  induction n with
  | zero => rfl
  | succ k ih => simp [List.replicate_succ, List.filterMap_cons]

theorem teeWritesOf_sinkMap (ws : List Nat) :
    teeWritesOf (ws.map Ev.sinkWrite) = [] := by
  induction ws with
  | nil => rfl
  | cons w r ih => simp [teeWritesOf, List.filterMap_cons] at ih ⊢

theorem teeWritesOf_gateEvs (n : Nat) : teeWritesOf (gateEvs n) = [] := by
  unfold gateEvs teeWritesOf
  induction n with
  | zero => rfl
  | succ k ih => simp [List.replicate_succ, List.filterMap_cons]

theorem pauseStateAfter_append (x y : List Ev) (b : Bool) :
    pauseStateAfter b (x ++ y) = pauseStateAfter (pauseStateAfter b x) y := by
  simp [pauseStateAfter]

theorem pausedOk_append (x y : List Ev) (b : Bool) :
    pausedOk b (x ++ y) = (pausedOk b x && pausedOk (pauseStateAfter b x) y) := by
  induction x generalizing b with
  | nil => simp [pausedOk, pauseStateAfter]
  | cons e r ih => simp [pausedOk, pauseStateAfter, ih, Bool.and_assoc]

theorem wellPingedFrom_append (x y : List Ev) (p : Option Ev) :
    wellPingedFrom p (x ++ y) =
      (wellPingedFrom p x && wellPingedFrom (lastEv p x) y) := by
  induction x generalizing p with
  | nil => simp [wellPingedFrom, lastEv]
  | cons e r ih => simp [wellPingedFrom, lastEv, ih, Bool.and_assoc]

theorem wellPingedFrom_of_noCall (l : List Ev) (h : hasCall l = false) (p : Option Ev) :
    wellPingedFrom p l = true := by
  induction l generalizing p with
  | nil => rfl
  | cons e r ih =>
    cases e <;> simp [hasCall] at h <;> simp [wellPingedFrom, evGuard, ih h]

theorem avRescaleRnd_mono (a a' b c : Nat) (h : a ≤ a') :
    avRescaleRnd a b c ≤ avRescaleRnd a' b c :=
  Nat.div_le_div_right (Nat.add_le_add_right (Nat.mul_le_mul_right b h) (c / 2))

theorem avRescaleQ_mono (a a' bNum bDen cNum cDen : Nat) (h : a ≤ a') :
    avRescaleQ a bNum bDen cNum cDen ≤ avRescaleQ a' bNum bDen cNum cDen :=
  avRescaleRnd_mono a a' (bNum * cDen) (cNum * bDen) h

theorem avRescaleRnd_halfTick (a b c : Nat) (hc : 0 < c) :
    a * b ≤ c * avRescaleRnd a b c + c / 2 ∧
      c * avRescaleRnd a b c ≤ a * b + c / 2 := by
  have hdm := Nat.div_add_mod (a * b + c / 2) c
  have hlt := Nat.mod_lt (a * b + c / 2) hc
  unfold avRescaleRnd
  omega

theorem sinkWritesOf_ping_call (k : CKind) (l : List Ev) :
    sinkWritesOf (Ev.ping :: Ev.call k :: l) = sinkWritesOf l := by
  simp [sinkWritesOf, List.filterMap_cons]

theorem teeWritesOf_ping_call (k : CKind) (l : List Ev) :
    teeWritesOf (Ev.ping :: Ev.call k :: l) = teeWritesOf l := by
  simp [teeWritesOf, List.filterMap_cons]

theorem sinkWritesOf_iterEvents (cfg : PConfig) (p : Packet) (spins : Nat) :
    sinkWritesOf (iterEvents cfg p spins) = decodePacket p.size p.outcomes := by
  simp [iterEvents, sinkWritesOf_append, sinkWritesOf_teeEvs, sinkWritesOf_gateEvs,
    sinkWritesOf_sinkMap]

theorem playGo_proj (cfg : PConfig) (s : List IterInput) :
    ∀ st, (playGo cfg st s).map (fun r => (r.1, sinkWritesOf r.2.1, r.2.2)) =
      playProj cfg st s := by
  induction s with
  | nil => intro st; rfl
  | cons i rest ih =>
    intro st
    by_cases hq : i.quit
    · simp [playGo, playProj, hq, sinkWritesOf]
    · cases hr : i.read with
      | ok p =>
        by_cases hs : p.streamIndex = cfg.streamIdx
        · simp only [playGo, playProj, hq, hr, hs, ne_eq, not_true_eq_false, if_false,
            Bool.false_eq_true, ite_false, Option.map_map]
          rw [← ih (iterUpdate cfg st p), Option.map_map]
          cases playGo cfg (iterUpdate cfg st p) rest with
          | none => rfl
          | some r =>
            simp [Function.comp, List.cons_append, sinkWritesOf_ping_call,
              sinkWritesOf_append, sinkWritesOf_iterEvents]
        · simp only [playGo, playProj, hq, hr, hs, ne_eq, not_false_eq_true, if_true,
            Bool.false_eq_true, ite_false, Option.map_map]
          rw [← ih st]
          cases playGo cfg st rest with
          | none => rfl
          | some r => simp [Function.comp, sinkWritesOf_ping_call]
      | err e =>
        simp [playGo, playProj, hq, hr, sinkWritesOf, List.filterMap_cons]

theorem playGo_cons_quit (cfg : PConfig) (st : PlayState) (i : IterInput)
    (rest : List IterInput) (hq : i.quit = true) :
    playGo cfg st (i :: rest) = some (st, [], 0) := by
  simp [playGo, hq]

theorem playGo_cons_err (cfg : PConfig) (st : PlayState) (i : IterInput)
    (rest : List IterInput) (e : Int) (hq : i.quit = false) (hr : i.read = .err e) :
    playGo cfg st (i :: rest) = some (st, [Ev.ping, Ev.call .readFrame], e) := by
  simp [playGo, hq, hr]

theorem playGo_cons_skip (cfg : PConfig) (st : PlayState) (i : IterInput)
    (rest : List IterInput) (p : Packet) (hq : i.quit = false) (hr : i.read = .ok p)
    (hs : p.streamIndex ≠ cfg.streamIdx) :
    playGo cfg st (i :: rest) = (playGo cfg st rest).map fun r =>
      (r.1, Ev.ping :: Ev.call .readFrame :: r.2.1, r.2.2) := by
  simp [playGo, hq, hr, hs]

theorem playGo_cons_match (cfg : PConfig) (st : PlayState) (i : IterInput)
    (rest : List IterInput) (p : Packet) (hq : i.quit = false) (hr : i.read = .ok p)
    (hs : p.streamIndex = cfg.streamIdx) :
    playGo cfg st (i :: rest) = (playGo cfg (iterUpdate cfg st p) rest).map fun r =>
      (r.1, (Ev.ping :: Ev.call .readFrame :: iterEvents cfg p i.pauseSpins) ++ r.2.1, r.2.2) := by
  simp [playGo, hq, hr, hs]

theorem playProj_cons_quit (cfg : PConfig) (st : PlayState) (i : IterInput)
    (rest : List IterInput) (hq : i.quit = true) :
    playProj cfg st (i :: rest) = some (st, [], 0) := by
  simp [playProj, hq]

theorem playProj_cons_err (cfg : PConfig) (st : PlayState) (i : IterInput)
    (rest : List IterInput) (e : Int) (hq : i.quit = false) (hr : i.read = .err e) :
    playProj cfg st (i :: rest) = some (st, [], e) := by
  simp [playProj, hq, hr]

theorem playProj_cons_skip (cfg : PConfig) (st : PlayState) (i : IterInput)
    (rest : List IterInput) (p : Packet) (hq : i.quit = false) (hr : i.read = .ok p)
    (hs : p.streamIndex ≠ cfg.streamIdx) :
    playProj cfg st (i :: rest) = playProj cfg st rest := by
  simp [playProj, hq, hr, hs]

theorem playProj_cons_match (cfg : PConfig) (st : PlayState) (i : IterInput)
    (rest : List IterInput) (p : Packet) (hq : i.quit = false) (hr : i.read = .ok p)
    (hs : p.streamIndex = cfg.streamIdx) :
    playProj cfg st (i :: rest) = (playProj cfg (iterUpdate cfg st p) rest).map fun r =>
      (r.1, decodePacket p.size p.outcomes ++ r.2.1, r.2.2) := by
  simp [playProj, hq, hr, hs]

theorem withSaveFile_streamIdx (cfg : PConfig) (b : Bool) :
    (withSaveFile cfg b).streamIdx = cfg.streamIdx := rfl

theorem iterUpdate_withSaveFile (cfg : PConfig) (b : Bool) (st : PlayState) (p : Packet) :
    iterUpdate (withSaveFile cfg b) st p = iterUpdate cfg st p := rfl

theorem stripSpins_cons (i : IterInput) (r : List IterInput) :
    stripSpins (i :: r) = ⟨i.quit, i.read, 0⟩ :: stripSpins r := rfl

theorem playProj_withSaveFile (cfg : PConfig) (b : Bool) (s : List IterInput) :
    ∀ st, playProj (withSaveFile cfg b) st s = playProj cfg st s := by
  induction s with
  | nil => intro st; rfl
  | cons i rest ih =>
    intro st
    cases hq : i.quit with
    | true => rw [playProj_cons_quit _ _ _ _ hq, playProj_cons_quit _ _ _ _ hq]
    | false =>
      cases hr : i.read with
      | err e => rw [playProj_cons_err _ _ _ _ _ hq hr, playProj_cons_err _ _ _ _ _ hq hr]
      | ok p =>
        by_cases hs : p.streamIndex = cfg.streamIdx
        · rw [playProj_cons_match _ _ _ _ _ hq hr (by rw [withSaveFile_streamIdx]; exact hs),
            playProj_cons_match _ _ _ _ _ hq hr hs, iterUpdate_withSaveFile, ih]
        · rw [playProj_cons_skip _ _ _ _ _ hq hr (by rw [withSaveFile_streamIdx]; exact hs),
            playProj_cons_skip _ _ _ _ _ hq hr hs, ih]

theorem playProj_stripSpins (cfg : PConfig) (s : List IterInput) :
    ∀ st, playProj cfg st (stripSpins s) = playProj cfg st s := by
  induction s with
  | nil => intro st; rfl
  | cons i rest ih =>
    intro st
    rw [stripSpins_cons]
    cases hq : i.quit with
    | true =>
      rw [playProj_cons_quit cfg st ⟨true, i.read, 0⟩ (stripSpins rest) rfl,
        playProj_cons_quit cfg st i rest hq]
    | false =>
      cases hr : i.read with
      | err e =>
        rw [playProj_cons_err cfg st ⟨false, .err e, 0⟩ (stripSpins rest) e rfl rfl,
          playProj_cons_err cfg st i rest e hq hr]
      | ok p =>
        by_cases hs : p.streamIndex = cfg.streamIdx
        · rw [playProj_cons_match cfg st ⟨false, .ok p, 0⟩ (stripSpins rest) p rfl rfl hs,
            playProj_cons_match cfg st i rest p hq hr hs, ih]
        · rw [playProj_cons_skip cfg st ⟨false, .ok p, 0⟩ (stripSpins rest) p rfl rfl hs,
            playProj_cons_skip cfg st i rest p hq hr hs, ih]

theorem pausedOk_cons (b : Bool) (e : Ev) (l : List Ev) :
    pausedOk b (e :: l) = (pauseGuard b e && pausedOk (pauseStep b e) l) := rfl

theorem pauseStateAfter_cons (b : Bool) (e : Ev) (l : List Ev) :
    pauseStateAfter b (e :: l) = pauseStateAfter (pauseStep b e) l := rfl

theorem gateEvs_succ (n : Nat) : gateEvs (n + 1) = Ev.pauseWait :: gateEvs n := by
  simp [gateEvs, List.replicate_succ]

theorem pausedOk_gateEvs (n : Nat) :
    ∀ b, pausedOk b (gateEvs n) = true ∧ pauseStateAfter b (gateEvs n) = false := by
  induction n with
  | zero => intro b; exact ⟨rfl, rfl⟩
  | succ k ih =>
    intro b
    rw [gateEvs_succ]
    exact ⟨by rw [pausedOk_cons]; simp [pauseGuard, pauseStep, (ih true).1],
      by rw [pauseStateAfter_cons]; simp [pauseStep, (ih true).2]⟩

theorem pausedOk_sinkMap (ws : List Nat) :
    pausedOk false (ws.map Ev.sinkWrite) = true ∧
      pauseStateAfter false (ws.map Ev.sinkWrite) = false := by
  induction ws with
  | nil => exact ⟨rfl, rfl⟩
  | cons w r ih =>
    exact ⟨by rw [List.map_cons, pausedOk_cons]; simp [pauseGuard, pauseStep, ih.1],
      by rw [List.map_cons, pauseStateAfter_cons]; simp [pauseStep, ih.2]⟩

theorem pausedOk_teeEvs (cfg : PConfig) (p : Packet) :
    ∀ b, pausedOk b (teeEvs cfg p) = true ∧ pauseStateAfter b (teeEvs cfg p) = b := by
  intro b
  unfold teeEvs
  split
  · exact ⟨by rw [pausedOk_cons]; simp [pauseGuard, pauseStep, pausedOk],
      by rw [pauseStateAfter_cons]; simp [pauseStep, pauseStateAfter]⟩
  · exact ⟨rfl, rfl⟩

theorem pausedOk_iterEvents (cfg : PConfig) (p : Packet) (spins : Nat) :
    pausedOk false (iterEvents cfg p spins) = true ∧
      pauseStateAfter false (iterEvents cfg p spins) = false := by
  have ht := pausedOk_teeEvs cfg p false
  have hg := pausedOk_gateEvs spins false
  have hw := pausedOk_sinkMap (decodePacket p.size p.outcomes)
  constructor
  · simp [iterEvents, pausedOk_append, pauseStateAfter_append, ht.1, ht.2, hg.1, hg.2, hw.1]
  · simp [iterEvents, pauseStateAfter_append, ht.2, hg.2, hw.2]

theorem playGo_pausedOk (cfg : PConfig) (s : List IterInput) :
    ∀ st r, playGo cfg st s = some r → pausedOk false r.2.1 = true := by
  induction s with
  | nil => intro st r h; cases h
  | cons i rest ih =>
    intro st r h
    cases hq : i.quit with
    | true =>
      rw [playGo_cons_quit _ _ _ _ hq] at h
      cases h
      rfl
    | false =>
      cases hr : i.read with
      | err e =>
        rw [playGo_cons_err _ _ _ _ _ hq hr] at h
        cases h
        rfl
      | ok p =>
        by_cases hs : p.streamIndex = cfg.streamIdx
        · rw [playGo_cons_match _ _ _ _ _ hq hr hs] at h
          obtain ⟨r', hrec, rfl⟩ := Option.map_eq_some'.mp h
          have hchunk := pausedOk_iterEvents cfg p i.pauseSpins
          simp only [List.cons_append, pausedOk_cons, pauseGuard, pauseStep,
            Bool.true_and, pausedOk_append, hchunk.1, hchunk.2]
          exact ih _ r' hrec
        · rw [playGo_cons_skip _ _ _ _ _ hq hr hs] at h
          obtain ⟨r', hrec, rfl⟩ := Option.map_eq_some'.mp h
          simp only [pausedOk_cons, pauseGuard, pauseStep, Bool.true_and]
          exact ih st r' hrec

theorem hasCall_append (x y : List Ev) : hasCall (x ++ y) = (hasCall x || hasCall y) := by
  induction x with
  | nil => rfl
  | cons e r ih => cases e <;> simp [hasCall, ih]

theorem hasCall_teeEvs (cfg : PConfig) (p : Packet) : hasCall (teeEvs cfg p) = false := by
  unfold teeEvs; split <;> rfl

theorem hasCall_gateEvs (n : Nat) : hasCall (gateEvs n) = false := by
  induction n with
  | zero => rfl
  | succ k ih => rw [gateEvs_succ]; exact ih

theorem hasCall_sinkMap (ws : List Nat) : hasCall (ws.map Ev.sinkWrite) = false := by
  induction ws with
  | nil => rfl
  | cons w r ih => exact ih

theorem hasCall_iterEvents (cfg : PConfig) (p : Packet) (spins : Nat) :
    hasCall (iterEvents cfg p spins) = false := by
  simp [iterEvents, hasCall_append, hasCall_teeEvs, hasCall_gateEvs, hasCall_sinkMap]

theorem hasCall_finishTrace (a b c : Bool) : hasCall (finishTrace a b c) = false := by
  cases a <;> cases b <;> cases c <;> rfl

theorem wellPingedFrom_cons (pv : Option Ev) (e : Ev) (l : List Ev) :
    wellPingedFrom pv (e :: l) = (evGuard pv e && wellPingedFrom (some e) l) := rfl

theorem wellPingedFrom_openTraceFail (stp : OpenStep) (pv : Option Ev) :
    wellPingedFrom pv (openTraceFail stp) = true := by
  cases stp <;> rfl

theorem wellPingedFrom_openTraceOk (ts : Nat) (pv : Option Ev) :
    wellPingedFrom pv (openTraceOk ts) = true := by
  by_cases h : 0 < ts <;> simp [openTraceOk, h] <;> rfl

theorem playGo_wellPinged (cfg : PConfig) (s : List IterInput) :
    ∀ st r, playGo cfg st s = some r → ∀ pv, wellPingedFrom pv r.2.1 = true := by
  induction s with
  | nil => intro st r h; cases h
  | cons i rest ih =>
    intro st r h pv
    cases hq : i.quit with
    | true =>
      rw [playGo_cons_quit _ _ _ _ hq] at h
      cases h
      rfl
    | false =>
      cases hr : i.read with
      | err e =>
        rw [playGo_cons_err _ _ _ _ _ hq hr] at h
        cases h
        rfl
      | ok p =>
        by_cases hs : p.streamIndex = cfg.streamIdx
        · rw [playGo_cons_match _ _ _ _ _ hq hr hs] at h
          obtain ⟨r', hrec, rfl⟩ := Option.map_eq_some'.mp h
          simp only [List.cons_append, wellPingedFrom_cons, wellPingedFrom_append,
            evGuard, isPing, CKind.isBlockingCall, Bool.true_and,
            wellPingedFrom_of_noCall _ (hasCall_iterEvents cfg p i.pauseSpins)]
          exact ih _ r' hrec _
        · rw [playGo_cons_skip _ _ _ _ _ hq hr hs] at h
          obtain ⟨r', hrec, rfl⟩ := Option.map_eq_some'.mp h
          simp only [wellPingedFrom_cons, evGuard, isPing, CKind.isBlockingCall,
            Bool.true_and]
          exact ih st r' hrec _

theorem threadGo_nil (cfg : SCfg) (pret : RC) (ts : Nat) (sf : Bool) :
    threadGo cfg pret ts sf [] = none := rfl

theorem threadGo_openFail (cfg : SCfg) (pret : RC) (ts : Nat) (sf : Bool)
    (a : Attempt) (rest : List Attempt) (stp : OpenStep) (hf : a.env.failAt = some stp) :
    threadGo cfg pret ts sf (a :: rest) =
      some ⟨RC.softfail, ts, sf, openTraceFail stp ++ finishTrace false false false⟩ := by
  simp [threadGo, hf]

theorem threadGo_hardFail (cfg : SCfg) (pret : RC) (ts : Nat) (sf : Bool)
    (a : Attempt) (rest : List Attempt) (hf : a.env.failAt = none)
    (hfd : (a.filterOk && a.deviceOk) = false) :
    threadGo cfg pret ts sf (a :: rest) =
      some ⟨RC.hardfail, ts,
        (openSave cfg.saveDir cfg.station cfg.artist cfg.title a.env.dirExists a.env.fileExists).saveFile,
        openTraceOk ts ++ finishTrace a.filterOk true true⟩ := by
  simp [threadGo, hf, hfd]

theorem threadGo_noRetry (cfg : SCfg) (pret : RC) (ts : Nat) (sf : Bool)
    (a : Attempt) (rest : List Attempt) (st : PlayState) (tr : List Ev) (ret : Int)
    (hf : a.env.failAt = none) (hfd : (a.filterOk && a.deviceOk) = true)
    (hplay : playGo
        (pcfgOf cfg
          (openSave cfg.saveDir cfg.station cfg.artist cfg.title a.env.dirExists a.env.fileExists).saveFile
          a.env)
        ⟨ts, 0⟩ a.script = some (st, tr, ret))
    (hret : ret ≠ AVERROR_INVALIDDATA) :
    threadGo cfg pret ts sf (a :: rest) =
      some ⟨pret, st.lastTimestamp,
        (openSave cfg.saveDir cfg.station cfg.artist cfg.title a.env.dirExists a.env.fileExists).saveFile,
        openTraceOk ts ++ tr ++ finishTrace true true true⟩ := by
  simp [threadGo, hf, hfd, hplay, hret]

theorem threadGo_retry (cfg : SCfg) (pret : RC) (ts : Nat) (sf : Bool)
    (a : Attempt) (rest : List Attempt) (st : PlayState) (tr : List Ev)
    (hf : a.env.failAt = none) (hfd : (a.filterOk && a.deviceOk) = true)
    (hplay : playGo
        (pcfgOf cfg
          (openSave cfg.saveDir cfg.station cfg.artist cfg.title a.env.dirExists a.env.fileExists).saveFile
          a.env)
        ⟨ts, 0⟩ a.script = some (st, tr, AVERROR_INVALIDDATA)) :
    threadGo cfg pret ts sf (a :: rest) =
      (threadGo cfg pret st.lastTimestamp
          (openSave cfg.saveDir cfg.station cfg.artist cfg.title a.env.dirExists a.env.fileExists).saveFile
          rest).map fun r =>
        ⟨r.pret, r.lastTimestamp, r.saveFile,
          (openTraceOk ts ++ tr ++ finishTrace true true true) ++ r.trace⟩ := by
  simp [threadGo, hf, hfd, hplay]

theorem threadGo_wellPinged (cfg : SCfg) (atts : List Attempt) :
    ∀ pret ts sf r, threadGo cfg pret ts sf atts = some r →
      ∀ pv, wellPingedFrom pv r.trace = true := by
  induction atts with
  | nil => intro pret ts sf r h; cases h
  | cons a rest ih =>
    intro pret ts sf r h pv
    cases hf : a.env.failAt with
    | some stp =>
      rw [threadGo_openFail _ _ _ _ _ _ _ hf] at h
      cases h
      simp only [wellPingedFrom_append, wellPingedFrom_openTraceFail,
        wellPingedFrom_of_noCall _ (hasCall_finishTrace false false false), Bool.and_self]
    | none =>
      cases hfd : (a.filterOk && a.deviceOk) with
      | false =>
        rw [threadGo_hardFail _ _ _ _ _ _ hf hfd] at h
        cases h
        simp only [wellPingedFrom_append, wellPingedFrom_openTraceOk,
          wellPingedFrom_of_noCall _ (hasCall_finishTrace a.filterOk true true), Bool.and_self]
      | true =>
        cases hplay : playGo
            (pcfgOf cfg
              (openSave cfg.saveDir cfg.station cfg.artist cfg.title a.env.dirExists a.env.fileExists).saveFile
              a.env)
            ⟨ts, 0⟩ a.script with
        | none => simp [threadGo, hf, hfd, hplay] at h
        | some res =>
          obtain ⟨st, tr, ret⟩ := res
          have hw := playGo_wellPinged _ _ _ _ hplay
          by_cases hret : ret = AVERROR_INVALIDDATA
          · subst hret
            rw [threadGo_retry _ _ _ _ _ _ _ _ hf hfd hplay] at h
            obtain ⟨r', hrec, rfl⟩ := Option.map_eq_some'.mp h
            simp only [wellPingedFrom_append, wellPingedFrom_openTraceOk, hw,
              wellPingedFrom_of_noCall _ (hasCall_finishTrace true true true),
              Bool.and_self, Bool.true_and]
            exact ih _ _ _ r' hrec _
          · rw [threadGo_noRetry _ _ _ _ _ _ _ _ _ hf hfd hplay hret] at h
            cases h
            simp only [wellPingedFrom_append, wellPingedFrom_openTraceOk, hw,
              wellPingedFrom_of_noCall _ (hasCall_finishTrace true true true),
              Bool.and_self, Bool.true_and]

theorem runStateP_cons (cfg : PConfig) (st : PlayState) (i : IterInput) (pr : List IterInput) :
    runStateP cfg st (i :: pr) = runStateP cfg (stepStateP cfg st i) pr := rfl

theorem runTraceP_cons (cfg : PConfig) (i : IterInput) (pr : List IterInput) :
    runTraceP cfg (i :: pr) = iterTrace cfg i ++ runTraceP cfg pr := rfl

theorem stepStateP_eq_match (cfg : PConfig) (st : PlayState) (i : IterInput) (p : Packet)
    (hr : i.read = .ok p) (hs : p.streamIndex = cfg.streamIdx) :
    stepStateP cfg st i = iterUpdate cfg st p := by
  simp [stepStateP, hr, hs]

theorem stepStateP_eq_skip (cfg : PConfig) (st : PlayState) (i : IterInput) (p : Packet)
    (hr : i.read = .ok p) (hs : p.streamIndex ≠ cfg.streamIdx) :
    stepStateP cfg st i = st := by
  simp [stepStateP, hr, hs]

theorem iterTrace_eq_match (cfg : PConfig) (i : IterInput) (p : Packet)
    (hr : i.read = .ok p) (hs : p.streamIndex = cfg.streamIdx) :
    iterTrace cfg i = Ev.ping :: Ev.call .readFrame :: iterEvents cfg p i.pauseSpins := by
  simp [iterTrace, hr, hs]

theorem iterTrace_eq_skip (cfg : PConfig) (i : IterInput) (p : Packet)
    (hr : i.read = .ok p) (hs : p.streamIndex ≠ cfg.streamIdx) :
    iterTrace cfg i = [Ev.ping, Ev.call .readFrame] := by
  simp [iterTrace, hr, hs]

theorem playGo_ok_append (cfg : PConfig) (pre : List IterInput) :
    ∀ st rest, (∀ i ∈ pre, iterOk i = true) →
      playGo cfg st (pre ++ rest) =
        (playGo cfg (runStateP cfg st pre) rest).map fun r =>
          (r.1, runTraceP cfg pre ++ r.2.1, r.2.2) := by
  induction pre with
  | nil =>
    intro st rest _
    simp only [List.nil_append]
    rw [show runStateP cfg st [] = st from rfl, show runTraceP cfg ([] : List IterInput) = [] from rfl]
    cases playGo cfg st rest with
    | none => rfl
    | some r => simp
  | cons i pr ih =>
    intro st rest h
    have hi := h i (List.mem_cons_self i pr)
    have htail : ∀ j ∈ pr, iterOk j = true := fun j hj => h j (List.mem_cons_of_mem _ hj)
    cases hqv : i.quit with
    | true => simp [iterOk, hqv] at hi
    | false =>
      cases hr : i.read with
      | err e => simp [iterOk, hqv, hr] at hi
      | ok p =>
        by_cases hs : p.streamIndex = cfg.streamIdx
        · rw [List.cons_append, playGo_cons_match _ _ _ _ _ hqv hr hs,
            ih _ rest htail, Option.map_map, runStateP_cons,
            stepStateP_eq_match cfg st i p hr hs, runTraceP_cons,
            iterTrace_eq_match cfg i p hr hs]
          cases playGo cfg (runStateP cfg (iterUpdate cfg st p) pr) rest with
          | none => rfl
          | some r => simp [Function.comp, List.append_assoc]
        · rw [List.cons_append, playGo_cons_skip _ _ _ _ _ hqv hr hs,
            ih _ rest htail, Option.map_map, runStateP_cons,
            stepStateP_eq_skip cfg st i p hr hs, runTraceP_cons,
            iterTrace_eq_skip cfg i p hr hs]
          cases playGo cfg (runStateP cfg st pr) rest with
          | none => rfl
          | some r => simp [Function.comp, List.append_assoc]

theorem teeWritesOf_teeEvs (cfg : PConfig) (p : Packet) :
    teeWritesOf (teeEvs cfg p) =
      if cfg.saveFile then [(teeRescale cfg p.pts, teeRescale cfg p.dts)] else [] := by
  unfold teeEvs
  split <;> simp [teeWritesOf, List.filterMap_cons]

theorem teeWritesOf_iterEvents (cfg : PConfig) (p : Packet) (spins : Nat) :
    teeWritesOf (iterEvents cfg p spins) =
      if cfg.saveFile then [(teeRescale cfg p.pts, teeRescale cfg p.dts)] else [] := by
  simp [iterEvents, teeWritesOf_append, teeWritesOf_teeEvs, teeWritesOf_gateEvs,
    teeWritesOf_sinkMap]

theorem playGo_teeWrites (cfg : PConfig) (s : List IterInput) :
    ∀ st r, playGo cfg st s = some r →
      teeWritesOf r.2.1 =
        if cfg.saveFile then
          (pktsOf cfg s).map fun p => (teeRescale cfg p.pts, teeRescale cfg p.dts)
        else [] := by
  induction s with
  | nil => intro st r h; cases h
  | cons i rest ih =>
    intro st r h
    cases hq : i.quit with
    | true =>
      rw [playGo_cons_quit _ _ _ _ hq] at h
      cases h
      simp [pktsOf, hq, teeWritesOf]
    | false =>
      cases hr : i.read with
      | err e =>
        rw [playGo_cons_err _ _ _ _ _ hq hr] at h
        cases h
        simp [pktsOf, hq, hr, teeWritesOf, List.filterMap_cons]
      | ok p =>
        by_cases hs : p.streamIndex = cfg.streamIdx
        · rw [playGo_cons_match _ _ _ _ _ hq hr hs] at h
          obtain ⟨r', hrec, rfl⟩ := Option.map_eq_some'.mp h
          have htail := ih _ r' hrec
          cases hsf : cfg.saveFile <;>
            simp [pktsOf, hq, hr, hs, hsf, List.cons_append, teeWritesOf_ping_call,
              teeWritesOf_append, teeWritesOf_iterEvents, htail]
        · rw [playGo_cons_skip _ _ _ _ _ hq hr hs] at h
          obtain ⟨r', hrec, rfl⟩ := Option.map_eq_some'.mp h
          have htail := ih _ r' hrec
          cases hsf : cfg.saveFile <;>
            simp [pktsOf, hq, hr, hs, hsf, teeWritesOf_ping_call, htail]

theorem sanitize_no_slash (s : List Char) : '/' ∉ sanitizeFilename s := by
  intro hmem
  obtain ⟨c, _, hfc⟩ := List.mem_map.mp hmem
  by_cases h : c = '/'
  · rw [if_pos h] at hfc
    exact absurd hfc (by decide)
  · rw [if_neg h] at hfc
    exact h hfc

theorem count_slash_saveFilename (artist title : List Char) :
    (saveFilenameOf artist title).count '/' = 0 :=
  List.count_eq_zero.mpr (sanitize_no_slash _)

theorem openSave_saveComplete (d station artist title : List Char) (de fe : Bool) :
    (openSave (some d) station artist title de fe).saveComplete =
      normSaveDir d ++ station ++ '/' :: saveFilenameOf artist title := by
  simp [openSave, savePathOf, List.append_assoc]

theorem openSave_saveFile (sd : Option (List Char)) (station artist title : List Char)
    (de fe : Bool) :
    (openSave sd station artist title de fe).saveFile = (sd.isSome && !fe) := by
  cases sd <;> simp [openSave]

theorem openSave_container (sd : Option (List Char)) (station artist title : List Char)
    (de fe : Bool) :
    (openSave sd station artist title de fe).containerCreated = (sd.isSome && !fe) := by
  cases sd <;> simp [openSave]

theorem openSave_dirs (d station artist title : List Char) (de fe : Bool) :
    (openSave (some d) station artist title de fe).dirsCreated =
      if de then [] else [savePathOf d station] := by
  simp [openSave]

theorem iterUpdate_pkt7 : iterUpdate wPCfg ⟨0, 0⟩ pkt7 = (⟨7, 7⟩ : PlayState) := by
  simp only [iterUpdate, wPCfg, pkt7, PlayState.mk.injEq]
  norm_num

theorem playGo_retryAttempt :
    playGo wPCfg ⟨0, 0⟩ retryAttempt.script =
      some (⟨7, 7⟩, w2tr, AVERROR_INVALIDDATA) := by
  rw [show retryAttempt.script = [⟨false, ReadResult.ok pkt7, 0⟩, invalidIter] from rfl,
    playGo_cons_match wPCfg ⟨0, 0⟩ _ _ pkt7 rfl rfl rfl,
    playGo_cons_err wPCfg _ invalidIter [] AVERROR_INVALIDDATA rfl rfl,
    Option.map_some', iterUpdate_pkt7]
  rfl

theorem playGo_pauseScript :
    playGo wPCfg ⟨0, 0⟩ pauseScript =
      some (⟨7, 7⟩, [Ev.ping, Ev.call .readFrame, Ev.teeWrite 7 7, Ev.pauseWait,
        Ev.pauseWait, Ev.readPlay, Ev.sinkWrite 512], 0) := by
  rw [show pauseScript = [⟨false, ReadResult.ok pkt7, 2⟩, quitIter] from rfl,
    playGo_cons_match wPCfg ⟨0, 0⟩ _ _ pkt7 rfl rfl rfl,
    playGo_cons_quit wPCfg _ quitIter [] rfl,
    Option.map_some', iterUpdate_pkt7]
  rfl

theorem playGo_cexScript :
    playGo cexPConfig ⟨0, 0⟩ cexScript =
      some (⟨15, 15⟩, [Ev.ping, Ev.call .readFrame, Ev.teeWrite 5 5, Ev.readPlay], 0) := by
  rw [show cexScript = [⟨false, ReadResult.ok cexPkt, 0⟩, quitIter] from rfl,
    playGo_cons_match cexPConfig ⟨0, 0⟩ _ _ cexPkt rfl rfl rfl,
    playGo_cons_quit cexPConfig _ quitIter [] rfl, Option.map_some',
    show iterUpdate cexPConfig ⟨0, 0⟩ cexPkt = (⟨15, 15⟩ : PlayState) from by
      simp only [iterUpdate, cexPConfig, cexPkt, PlayState.mk.injEq]
      norm_num]
  rfl

/- Claim theorems. -/

/-- C1, counterexample to the claim as stated: a run whose only attempt opens
    the stream (recording enabled), then fails to build the filter graph —
    terminal result HARDFAIL — still finalizes the container and moves the
    temp file to finalPath, because player.c line 548 guards finalization
    only by save_file && !doQuit and never looks at the result code. -/
theorem c1_counterexample :
    (barPlayerThread wCfg [cexHardAttempt] false).map
        (fun out => (out.pret, out.finalized, out.movedToFinal)) =
      some (RC.hardfail, true, true) := by
  rfl

/-- C1 (amended): the recording temp file is finalized (trailer written,
    closed) and moved to finalPath if and only if save_file is set and
    doQuit is unset at the final check, regardless of the terminal result
    code: a SOFTFAIL or HARDFAIL run with recording enabled is finalized and
    published all the same; mode always reaches FINISHED first.  (The move
    itself is a shell mv of /tmp/<name> to the save directory, whose
    atomicity is not modelled.) -/
theorem c1_amended_finalize_iff (cfg : SCfg) (atts : List Attempt) (q : Bool)
    (out : FinalOut) (h : barPlayerThread cfg atts q = some out) :
    out.finalized = (out.saveFile && !q) ∧
      out.movedToFinal = (out.saveFile && !q) ∧ out.mode = Mode.finished := by
  obtain ⟨r, _, rfl⟩ := Option.map_eq_some'.mp h
  exact ⟨rfl, rfl, rfl⟩

/-- C1 witness: the amended theorem evaluated on a run that quits: nothing
    is finalized or moved. -/
theorem c1_witness :
    w1Out.finalized = (w1Out.saveFile && !true) ∧
      w1Out.movedToFinal = (w1Out.saveFile && !true) ∧ w1Out.mode = Mode.finished :=
  c1_amended_finalize_iff wCfg [quitAttempt] true w1Out (by rfl)

/-- C2: when a fully opened session's decode loop ends with
    AVERROR_INVALIDDATA, the thread tears down filter, device and session
    (the closeDev/closeGraph/closeCodec/closeInput events of finishTrace)
    and re-enters openStream with the lastTimestamp play recorded, for any
    remaining environment (the retry is unbounded); any other return code
    ends the loop with no retry; and a reopened session with positive
    lastTimestamp seeks to exactly that timestamp. -/
theorem c2_retry_resume (cfg : SCfg) (pret : RC) (ts : Nat) (sf : Bool)
    (a : Attempt) (rest : List Attempt) (st : PlayState) (tr : List Ev) (ret : Int)
    (hf : a.env.failAt = none) (hfd : (a.filterOk && a.deviceOk) = true)
    (hplay : playGo
        (pcfgOf cfg
          (openSave cfg.saveDir cfg.station cfg.artist cfg.title a.env.dirExists a.env.fileExists).saveFile
          a.env)
        ⟨ts, 0⟩ a.script = some (st, tr, ret)) :
    (ret = AVERROR_INVALIDDATA →
      threadGo cfg pret ts sf (a :: rest) =
        (threadGo cfg pret st.lastTimestamp
            (openSave cfg.saveDir cfg.station cfg.artist cfg.title a.env.dirExists a.env.fileExists).saveFile
            rest).map fun r =>
          ⟨r.pret, r.lastTimestamp, r.saveFile,
            (openTraceOk ts ++ tr ++ finishTrace true true true) ++ r.trace⟩) ∧
    (ret ≠ AVERROR_INVALIDDATA →
      threadGo cfg pret ts sf (a :: rest) =
        some ⟨pret, st.lastTimestamp,
          (openSave cfg.saveDir cfg.station cfg.artist cfg.title a.env.dirExists a.env.fileExists).saveFile,
          openTraceOk ts ++ tr ++ finishTrace true true true⟩) ∧
    (0 < st.lastTimestamp →
      Ev.call (.seekFrame st.lastTimestamp) ∈ openTraceOk st.lastTimestamp) := by
  refine ⟨fun hret => ?_, fun hret => ?_, fun hpos => ?_⟩
  · rw [hret] at hplay
    exact threadGo_retry _ _ _ _ _ _ _ _ hf hfd hplay
  · exact threadGo_noRetry _ _ _ _ _ _ _ _ _ hf hfd hplay hret
  · simp [openTraceOk, hpos]

/-- C2 witness: a concrete corrupted-data retry: the first attempt plays one
    packet (lastTimestamp 7) and reads AVERROR_INVALIDDATA; the thread tears
    down and retries, and the reopened session's trace seeks to 7. -/
theorem c2_witness :
    (threadGo wCfg RC.ok 0 false [retryAttempt, quitAttempt] =
      (threadGo wCfg RC.ok 7 true [quitAttempt]).map fun r =>
        ⟨r.pret, r.lastTimestamp, r.saveFile,
          (openTraceOk 0 ++ w2tr ++ finishTrace true true true) ++ r.trace⟩) ∧
    Ev.call (.seekFrame 7) ∈ openTraceOk 7 := by
  have h := c2_retry_resume wCfg RC.ok 0 false retryAttempt [quitAttempt]
    ⟨7, 7⟩ w2tr AVERROR_INVALIDDATA rfl rfl playGo_retryAttempt
  exact ⟨h.1 rfl, h.2.2 (by decide)⟩

/-- C3, counterexample to the claim as stated: a fully opened session whose
    read fails with AVERROR_EXIT (the watchdog-abort code) terminates with
    result OK, not SOFTFAIL: BarPlayerThread uses play's return value only
    for the retry test and never stores a failure code for it. -/
theorem c3_counterexample :
    (barPlayerThread wCfg [cexReadErrAttempt] false).map (fun out => out.pret) =
        some RC.ok ∧
      RC.ok ≠ RC.softfail := by
  exact ⟨rfl, by decide⟩

/-- C3 (amended): a stream read that stalls (watchdog-aborted) or fails
    irrecoverably during playback — av_read_frame returning any error other
    than AVERROR_INVALIDDATA — is not retried, and leaves the terminal
    result code unchanged: a single-attempt run ends with PLAYER_RET_OK
    (the initial value), not SOFTFAIL. -/
theorem c3_amended_read_error_keeps_result (cfg : SCfg) (a : Attempt) (q : Bool)
    (st : PlayState) (tr : List Ev) (e : Int)
    (hf : a.env.failAt = none) (hfd : (a.filterOk && a.deviceOk) = true)
    (hplay : playGo
        (pcfgOf cfg
          (openSave cfg.saveDir cfg.station cfg.artist cfg.title a.env.dirExists a.env.fileExists).saveFile
          a.env)
        ⟨0, 0⟩ a.script = some (st, tr, e))
    (he : e ≠ AVERROR_INVALIDDATA) :
    (barPlayerThread cfg [a] q).map (fun out => out.pret) = some RC.ok := by
  unfold barPlayerThread
  rw [threadGo_noRetry cfg RC.ok 0 false a [] st tr e hf hfd hplay he]
  rfl

/-- C3 witness: the amended theorem evaluated on the watchdog-abort run. -/
theorem c3_witness :
    (barPlayerThread wCfg [cexReadErrAttempt] false).map (fun out => out.pret) =
      some RC.ok :=
  c3_amended_read_error_keeps_result wCfg cexReadErrAttempt false
    ⟨0, 0⟩ [Ev.ping, Ev.call .readFrame] AVERROR_EXIT rfl rfl (by decide) (by decide)

/-- C4, counterexample to the claim as stated: with the selected audio
    stream at index 1 (codec time base 1/5), stream 0's codec time base 1/3
    and output time base 1/1, the packet with pts 15 is written with
    timestamp 5 — the code rescales with streams[0]'s codec time base
    (player.c lines 410, 415) — while the claim's exact rational value
    pts * sourceTimeBase / destTimeBase for the selected track is 3. -/
theorem c4_counterexample :
    cexPConfig.streamIdx = 1 ∧
    (playGo cexPConfig ⟨0, 0⟩ cexScript).map (fun r => teeWritesOf r.2.1) =
      some [(5, 5)] ∧
    specExactRescale cexPkt.pts (cexPConfig.codecTbs.getD 1 (0, 0)).1
      (cexPConfig.codecTbs.getD 1 (0, 0)).2 cexPConfig.outTbNum cexPConfig.outTbDen = 3 ∧
    ((5 : ℚ) ≠ 3) := by
  refine ⟨rfl, ?_, ?_, by norm_num⟩
  · rw [playGo_cexScript]
    rfl
  · norm_num [specExactRescale, cexPkt, cexPConfig, List.getD]

/-- C4 (amended): every packet of a play run with recording enabled is
    written with pts and dts produced by av_rescale_q — round-to-nearest
    integer rescaling — from the codec time base of stream 0 (codecTbs.headI,
    not necessarily the selected track's) to the output time base; the
    rescale is monotone, so nondecreasing source timestamps give
    nondecreasing output timestamps, and each rescaled value lies within
    half an output tick of the exact product (no drift accumulation). -/
theorem c4_amended_rescale :
    (∀ (cfg : PConfig) (s : List IterInput) (st : PlayState)
        (r : PlayState × List Ev × Int), playGo cfg st s = some r →
      cfg.saveFile = true →
      teeWritesOf r.2.1 = (pktsOf cfg s).map fun p =>
        (avRescaleQ p.pts cfg.codecTbs.headI.1 cfg.codecTbs.headI.2 cfg.outTbNum cfg.outTbDen,
         avRescaleQ p.dts cfg.codecTbs.headI.1 cfg.codecTbs.headI.2 cfg.outTbNum cfg.outTbDen)) ∧
    (∀ a a' bNum bDen cNum cDen : Nat, a ≤ a' →
      avRescaleQ a bNum bDen cNum cDen ≤ avRescaleQ a' bNum bDen cNum cDen) ∧
    (∀ a b c : Nat, 0 < c →
      a * b ≤ c * avRescaleRnd a b c + c / 2 ∧ c * avRescaleRnd a b c ≤ a * b + c / 2) := by
  refine ⟨?_, avRescaleQ_mono, avRescaleRnd_halfTick⟩
  intro cfg s st r h hsf
  rw [playGo_teeWrites cfg s st r h, if_pos hsf]
  rfl

/-- C4 witness: the amended theorem evaluated on the counterexample run and
    on concrete rescale inputs. -/
theorem c4_witness :
    teeWritesOf [Ev.ping, Ev.call .readFrame, Ev.teeWrite 5 5, Ev.readPlay] =
      (pktsOf cexPConfig cexScript).map (fun p =>
        (avRescaleQ p.pts 1 3 1 1, avRescaleQ p.dts 1 3 1 1)) ∧
    avRescaleQ 3 1 3 1 1 ≤ avRescaleQ 15 1 3 1 1 ∧
    (2 * 3 ≤ 4 * avRescaleRnd 2 3 4 + 4 / 2 ∧ 4 * avRescaleRnd 2 3 4 ≤ 2 * 3 + 4 / 2) :=
  ⟨c4_amended_rescale.1 cexPConfig cexScript ⟨0, 0⟩
      (⟨15, 15⟩, [Ev.ping, Ev.call .readFrame, Ev.teeWrite 5 5, Ev.readPlay], 0)
      playGo_cexScript rfl,
   c4_amended_rescale.2.1 3 15 1 3 1 1 (by decide),
   c4_amended_rescale.2.2 2 3 4 (by decide)⟩

/-- C5: when doQuit is observed at the loop head after a prefix of normal
    iterations, play returns immediately with code 0 — final state and trace
    are exactly those of the prefix, so no further packet is processed and
    no further device write happens; the thread performs no retry
    (0 ≠ AVERROR_INVALIDDATA) and keeps the result code recorded so far (OK
    unless an earlier step failed); every terminating run ends with
    mode = FINISHED. -/
theorem c5_quit_clean :
    (∀ (cfg : PConfig) (st : PlayState) (pre : List IterInput) (i : IterInput)
        (rest : List IterInput), (∀ j ∈ pre, iterOk j = true) → i.quit = true →
      playGo cfg st (pre ++ i :: rest) =
        some (runStateP cfg st pre, runTraceP cfg pre, 0)) ∧
    (∀ (cfg : SCfg) (pret : RC) (ts : Nat) (sf : Bool) (a : Attempt)
        (rest : List Attempt) (st : PlayState) (tr : List Ev),
      a.env.failAt = none → (a.filterOk && a.deviceOk) = true →
      playGo (pcfgOf cfg
          (openSave cfg.saveDir cfg.station cfg.artist cfg.title a.env.dirExists a.env.fileExists).saveFile
          a.env) ⟨ts, 0⟩ a.script = some (st, tr, 0) →
      threadGo cfg pret ts sf (a :: rest) =
        some ⟨pret, st.lastTimestamp,
          (openSave cfg.saveDir cfg.station cfg.artist cfg.title a.env.dirExists a.env.fileExists).saveFile,
          openTraceOk ts ++ tr ++ finishTrace true true true⟩) ∧
    (∀ (cfg : SCfg) (atts : List Attempt) (q : Bool) (out : FinalOut),
      barPlayerThread cfg atts q = some out → out.mode = Mode.finished) := by
  refine ⟨?_, ?_, ?_⟩
  · intro cfg st pre i rest hok hq
    rw [playGo_ok_append cfg pre st (i :: rest) hok, playGo_cons_quit _ _ _ _ hq]
    simp
  · intro cfg pret ts sf a rest st tr hf hfd hplay
    exact threadGo_noRetry cfg pret ts sf a rest st tr 0 hf hfd hplay (by decide)
  · intro cfg atts q out h
    obtain ⟨r, _, rfl⟩ := Option.map_eq_some'.mp h
    rfl

/-- C5 witness: a one-packet run followed by an observed quit, the
    corresponding clean thread exit, and mode FINISHED on a quit run. -/
theorem c5_witness :
    playGo wPCfg ⟨0, 0⟩ ([⟨false, ReadResult.ok pkt7, 0⟩] ++ quitIter :: []) =
      some (runStateP wPCfg ⟨0, 0⟩ [⟨false, ReadResult.ok pkt7, 0⟩],
        runTraceP wPCfg [⟨false, ReadResult.ok pkt7, 0⟩], 0) ∧
    threadGo wCfg RC.ok 0 false [quitAttempt] =
      some ⟨RC.ok, 0, true, openTraceOk 0 ++ [] ++ finishTrace true true true⟩ ∧
    w1Out.mode = Mode.finished :=
  ⟨c5_quit_clean.1 wPCfg ⟨0, 0⟩ [⟨false, ReadResult.ok pkt7, 0⟩] quitIter []
      (by decide) rfl,
   c5_quit_clean.2.1 wCfg RC.ok 0 false quitAttempt [] ⟨0, 0⟩ [] rfl rfl rfl,
   c5_quit_clean.2.2 wCfg [quitAttempt] true w1Out (by rfl)⟩

/-- C6: no device write occurs between the pause gate observing
    doPause = true and its next observation of doPause = false (pausedOk
    along the trace), and a run's final state, device writes and return code
    are identical to those of the same script with every pause observation
    removed: pausing neither skips nor duplicates audio and playback resumes
    at the same decode position. -/
theorem c6_pause_gate :
    (∀ (cfg : PConfig) (s : List IterInput) (st : PlayState)
        (r : PlayState × List Ev × Int), playGo cfg st s = some r →
      pausedOk false r.2.1 = true) ∧
    (∀ (cfg : PConfig) (s : List IterInput) (st : PlayState),
      (playGo cfg st s).map (fun r => (r.1, sinkWritesOf r.2.1, r.2.2)) =
        (playGo cfg st (stripSpins s)).map (fun r => (r.1, sinkWritesOf r.2.1, r.2.2))) := by
  refine ⟨fun cfg s => playGo_pausedOk cfg s, ?_⟩
  intro cfg s st
  rw [playGo_proj, playGo_proj, playProj_stripSpins]

/-- C6 witness: a packet processed after two pause waits: no write before
    the readPlay resume, and the projected run equals the pause-free one. -/
theorem c6_witness :
    pausedOk false [Ev.ping, Ev.call .readFrame, Ev.teeWrite 7 7, Ev.pauseWait,
      Ev.pauseWait, Ev.readPlay, Ev.sinkWrite 512] = true ∧
    (playGo wPCfg ⟨0, 0⟩ pauseScript).map (fun r => (r.1, sinkWritesOf r.2.1, r.2.2)) =
      (playGo wPCfg ⟨0, 0⟩ (stripSpins pauseScript)).map
        (fun r => (r.1, sinkWritesOf r.2.1, r.2.2)) :=
  ⟨c6_pause_gate.1 wPCfg pauseScript ⟨0, 0⟩
      (⟨7, 7⟩, [Ev.ping, Ev.call .readFrame, Ev.teeWrite 7 7, Ev.pauseWait,
        Ev.pauseWait, Ev.readPlay, Ev.sinkWrite 512], 0) playGo_pauseScript,
   c6_pause_gate.2 wPCfg pauseScript ⟨0, 0⟩⟩

/-- C7: save_file is decided in openStream and equals "a save directory is
    configured and no file exists at save_complete"; when the target file
    exists, save_file is cleared and no output container (and no temp file)
    is created; and the playback projection of a run — final state, device
    writes, return code — does not depend on the save_file flag at all, so
    playback proceeds unaffected. -/
theorem c7_recording_decision :
    (∀ (sd : Option (List Char)) (station artist title : List Char) (de fe : Bool),
      (openSave sd station artist title de fe).saveFile = (sd.isSome && !fe)) ∧
    (∀ (sd : Option (List Char)) (station artist title : List Char) (de : Bool),
      (openSave sd station artist title de true).saveFile = false ∧
        (openSave sd station artist title de true).containerCreated = false) ∧
    (∀ (cfg : PConfig) (b b' : Bool) (s : List IterInput) (st : PlayState),
      (playGo (withSaveFile cfg b) st s).map (fun r => (r.1, sinkWritesOf r.2.1, r.2.2)) =
        (playGo (withSaveFile cfg b') st s).map (fun r => (r.1, sinkWritesOf r.2.1, r.2.2))) := by
  refine ⟨openSave_saveFile, ?_, ?_⟩
  · intro sd station artist title de
    constructor
    · rw [openSave_saveFile]
      simp
    · rw [openSave_container]
      simp
  · intro cfg b b' s st
    rw [playGo_proj, playGo_proj, playProj_withSaveFile, playProj_withSaveFile]

/-- C8: the watchdog predicate intCb is true exactly when the time since the
    last ping exceeds 10 seconds (10 * 1000000 microseconds), and in every
    terminating BarPlayerThread run each blocking stream-library call
    (open input, find stream info, seek, packet read) is immediately
    preceded by a ping event. -/
theorem c8_watchdog :
    (∀ now lastPing : Int, intCb now lastPing = true ↔ now - lastPing > 10 * 1000000) ∧
    (∀ (cfg : SCfg) (atts : List Attempt) (q : Bool) (out : FinalOut),
      barPlayerThread cfg atts q = some out → wellPingedFrom none out.trace = true) := by
  constructor
  · intro now lastPing
    simp [intCb]
  · intro cfg atts q out h
    obtain ⟨r, hr, rfl⟩ := Option.map_eq_some'.mp h
    exact threadGo_wellPinged cfg atts _ _ _ r hr none

/-- C8 witness: the predicate at a concrete elapsed time and the
    ping-discipline check on the concrete retry run's full trace. -/
theorem c8_witness :
    (intCb 20000002 1 = true ↔ (20000002 - 1 : Int) > 10 * 1000000) ∧
    wellPingedFrom none w2Out.trace = true :=
  ⟨c8_watchdog.1 20000002 1,
   c8_watchdog.2 wCfg [retryAttempt, quitAttempt] false w2Out (by rfl)⟩

/-- C9: the separator-to-space substitution is applied only to the combined
    "artist - title.aac" filename component (which therefore contains no
    separator); the station string is concatenated verbatim between the
    save directory and that filename, so the number of path separators in
    save_complete is the directory's plus the station's plus one — a
    station containing a separator adds directory levels — and the code
    issues exactly one mkdir, for the full station path (so only the
    innermost missing directory can be created). -/
theorem c9_station_separators :
    (∀ artist title : List Char, (saveFilenameOf artist title).count '/' = 0) ∧
    (∀ (d station artist title : List Char) (de fe : Bool),
      (openSave (some d) station artist title de fe).saveComplete =
        normSaveDir d ++ station ++ '/' :: saveFilenameOf artist title) ∧
    (∀ (d station artist title : List Char) (de fe : Bool),
      ((openSave (some d) station artist title de fe).saveComplete).count '/' =
        (normSaveDir d).count '/' + station.count '/' + 1) ∧
    (∀ (d station artist title : List Char) (de fe : Bool), '/' ∈ station →
      (normSaveDir d).count '/' + 2 ≤
        ((openSave (some d) station artist title de fe).saveComplete).count '/') ∧
    (∀ (d station artist title : List Char) (fe : Bool),
      (openSave (some d) station artist title false fe).dirsCreated =
        [savePathOf d station]) := by
  have hcount : ∀ (d station artist title : List Char) (de fe : Bool),
      ((openSave (some d) station artist title de fe).saveComplete).count '/' =
        (normSaveDir d).count '/' + station.count '/' + 1 := by
    intro d station artist title de fe
    rw [openSave_saveComplete]
    simp [List.count_append, List.count_cons, count_slash_saveFilename]
    omega
  refine ⟨count_slash_saveFilename, openSave_saveComplete, hcount, ?_, ?_⟩
  · intro d station artist title de fe hmem
    have hpos : 0 < station.count '/' := List.count_pos_iff.mpr hmem
    rw [hcount d station artist title de fe]
    omega
  · intro d station artist title fe
    rw [openSave_dirs]
    rfl

/-- C9 witness: a station name with a path separator yields a save_complete
    with at least one extra separator. -/
theorem c9_witness :
    (normSaveDir ('d' :: [])).count '/' + 2 ≤
      ((openSave (some ('d' :: [])) ('x' :: '/' :: 'y' :: []) ('a' :: []) ('t' :: [])
        true false).saveComplete).count '/' :=
  c9_station_separators.2.2.2.1 ('d' :: []) ('x' :: '/' :: 'y' :: []) ('a' :: [])
    ('t' :: []) true false (by decide)

/-- C10: a failing avcodec_decode_audio4 call discards the remainder of the
    packet (no device write from it); the decode loop's continuation does
    not depend on the packet's decode outcomes — play always proceeds to
    the next packet with the same state update (lastTimestamp := pkt.pts),
    so a decode-level error neither terminates playback nor changes the
    return code, and only av_read_frame's AVERROR_INVALIDDATA result is
    examined by the retry test. -/
theorem c10_decode_error_skips (cfg : PConfig) :
    (∀ (size : Nat) (o : DecodeOutcome) (rest : List DecodeOutcome), o.retval < 0 →
      decodePacket size (o :: rest) = []) ∧
    (∀ (st : PlayState) (i : IterInput) (p : Packet) (rest : List IterInput),
      i.quit = false → i.read = .ok p → p.streamIndex = cfg.streamIdx →
      playGo cfg st (i :: rest) = (playGo cfg (iterUpdate cfg st p) rest).map fun r =>
        (r.1, (Ev.ping :: Ev.call .readFrame :: iterEvents cfg p i.pauseSpins) ++ r.2.1, r.2.2)) ∧
    (∀ (st : PlayState) (p : Packet) (os : List DecodeOutcome),
      iterUpdate cfg st ⟨p.streamIndex, p.pts, p.dts, p.size, os⟩ = iterUpdate cfg st p) := by
  refine ⟨?_, ?_, ?_⟩
  · intro size o rest h
    simp [decodePacket, h]
  · intro st i p rest hq hr hs
    exact playGo_cons_match cfg st i rest p hq hr hs
  · intro st p os
    rfl

/-- C10 witness: a decode error at the first call yields no writes, and the
    one-packet iteration equation at concrete inputs. -/
theorem c10_witness :
    decodePacket 4 (⟨-1, [99]⟩ :: [⟨4, [512]⟩]) = [] ∧
    playGo wPCfg ⟨0, 0⟩ ([⟨false, ReadResult.ok pkt7, 0⟩] : List IterInput) =
      (playGo wPCfg (iterUpdate wPCfg ⟨0, 0⟩ pkt7) []).map (fun r =>
        (r.1, (Ev.ping :: Ev.call .readFrame :: iterEvents wPCfg pkt7 0) ++ r.2.1, r.2.2)) ∧
    iterUpdate wPCfg ⟨0, 0⟩ ⟨pkt7.streamIndex, pkt7.pts, pkt7.dts, pkt7.size, []⟩ =
      iterUpdate wPCfg ⟨0, 0⟩ pkt7 :=
  ⟨(c10_decode_error_skips wPCfg).1 4 ⟨-1, [99]⟩ [⟨4, [512]⟩] (by decide),
   (c10_decode_error_skips wPCfg).2.1 ⟨0, 0⟩ ⟨false, ReadResult.ok pkt7, 0⟩ pkt7 []
     rfl rfl rfl,
   (c10_decode_error_skips wPCfg).2.2 ⟨0, 0⟩ pkt7 []⟩

end Player
